import Mathlib

/-!
Shallow embedding of `src/app.js` (Jewellery Management System).

The JavaScript source is a client-side catalog widget: configuration
constants, an image resolver (`JewelleryImageManager`), an item model
(`JewelleryItem`), a grid controller (`JewelleryGridManager`) holding the
set of loaded item identifiers, and a purchase-intent handler that builds
a WhatsApp link. DOM state that the claims talk about (the rendered cards,
the visibility of the loading indicator and of the "view more" affordance,
the disabled flag of the "view more" button) is carried explicitly in a
`GridState` record; a JavaScript `Set` is embedded as a `Finset ℕ`;
a possibly-undefined property is embedded as an `Option`.
-/

set_option maxRecDepth 100000

namespace SisterSparkles

/-! ### Configuration constants (`JEWELLERY_CONFIG`, src/app.js lines 7-20) -/

namespace JEWELLERY_CONFIG

def BASE_PATH : String := "images/"

def IMAGE_PREFIX : String := "jewel-"

def TOTAL_IMAGES : ℕ := 36

def INITIAL_LOAD : ℕ := 8

def BATCH_SIZE : ℕ := 8

def FALLBACK_IMAGES : List String :=
  [ "https://images.unsplash.com/photo-1535632066927-ab7c9ab60908?ixlib=rb-4.0.3&auto=format&fit=crop&w=600&q=80",
    "https://images.unsplash.com/photo-1594576722512-582d5577dc56?ixlib=rb-4.0.3&auto=format&fit=crop&w=600&q=80",
    "https://images.unsplash.com/photo-1599643478518-a784e5dc4c8f?ixlib=rb-4.0.3&auto=format&fit=crop&w=600&q=80",
    "https://images.unsplash.com/photo-1611591437281-460bfbe1220a?ixlib=rb-4.0.3&auto=format&fit=crop&w=600&q=80",
    "https://images.unsplash.com/photo-1596944090625-7d7c2e6ab234?ixlib=rb-4.0.3&auto=format&fit=crop&w=600&q=80" ]

end JEWELLERY_CONFIG

/-- The static name table `JEWELLERY_NAMES` (src/app.js lines 23-60):
a literal list of 36 entries, each the string "Jewellery". -/
def JEWELLERY_NAMES : List String :=
  [ "Jewellery", "Jewellery", "Jewellery", "Jewellery",
    "Jewellery", "Jewellery", "Jewellery", "Jewellery",
    "Jewellery", "Jewellery", "Jewellery", "Jewellery",
    "Jewellery", "Jewellery", "Jewellery", "Jewellery",
    "Jewellery", "Jewellery", "Jewellery", "Jewellery",
    "Jewellery", "Jewellery", "Jewellery", "Jewellery",
    "Jewellery", "Jewellery", "Jewellery", "Jewellery",
    "Jewellery", "Jewellery", "Jewellery", "Jewellery",
    "Jewellery", "Jewellery", "Jewellery", "Jewellery" ]

/-! ### Image resolver (`JewelleryImageManager`, src/app.js lines 66-109) -/

namespace JewelleryImageManager

open JEWELLERY_CONFIG

/-- `getFallbackImage(index)` (src/app.js lines 91-94).
JavaScript computes `(index - 1) % FALLBACK_IMAGES.length` with the `%`
operator, whose result takes the sign of the dividend: this is `Int.tmod`.
A JavaScript array access at a negative (or too large) position yields
`undefined`, embedded here as `none`. -/
def getFallbackImage (index : ℤ) : Option String :=
  let fallbackIndex : ℤ := Int.tmod (index - 1) ( FALLBACK_IMAGES.length : ℤ)
  if 0 ≤ fallbackIndex then FALLBACK_IMAGES.get? fallbackIndex.toNat
  else none

/-- `getImageSrc(index)` (src/app.js lines 72-84): the local path
`images/jewel-<index>.jpg` whenever `index <= TOTAL_IMAGES`, otherwise the
fallback image. The result is an `Option` because the fallback lookup can
in principle miss (it never does for the indices this branch receives). -/
def getImageSrc (index : ℕ) : Option String :=
  let localPath := BASE_PATH ++ IMAGE_PREFIX ++ toString index ++ ".jpg"
  if index ≤ TOTAL_IMAGES then some localPath
  else getFallbackImage (index : ℤ)

end JewelleryImageManager

/-! ### Item model (`JewelleryItem`, src/app.js lines 115-142) -/

/-- The apostrophe character, used in the outbound-message sentences. -/
def apos : String := (Char.ofNat 39).toString

/-- `getName()` (src/app.js lines 130-132): `JEWELLERY_NAMES[id - 1]`
when that access yields a truthy value (a present, non-empty string),
otherwise the generated label `Jewellery Item <id>`. JavaScript `||`
falls back both on `undefined` (index out of range) and on `""`. -/
def JewelleryItem.getName (id : ℕ) : String :=
  match JEWELLERY_NAMES.get? (id - 1) with
  | some n => if n = "" then "Jewellery Item " ++ toString id else n
  | none => "Jewellery Item " ++ toString id

/-- A constructed `JewelleryItem` (src/app.js lines 120-124). The
constructor assigns `id`, `name` and `imageSrc` only; no `netlifyImageUrl`
property is ever assigned, so reading it yields `undefined` (`none`). -/
structure JewelleryItem where
  id : ℕ
  name : String
  imageSrc : Option String
  netlifyImageUrl : Option String

/-- `new JewelleryItem(id)` (src/app.js lines 120-124). -/
def JewelleryItem.create (id : ℕ) : JewelleryItem :=
  { id := id
    name := JewelleryItem.getName id
    imageSrc := JewelleryImageManager.getImageSrc id
    netlifyImageUrl := none }

/-! ### Percent-encoding (JavaScript `encodeURIComponent`)

`encodeURIComponent` leaves ASCII alphanumerics and `- _ . ! ~ * ' ( )`
unchanged and replaces every other character by the percent-encoding of
its UTF-8 bytes, with uppercase hexadecimal digits. -/

/-- UTF-8 byte sequence of a character. -/
def utf8Bytes (c : Char) : List ℕ :=
  let n := c.toNat
  if n < 0x80 then [n]
  else if n < 0x800 then [0xC0 + n / 0x40, 0x80 + n % 0x40]
  else if n < 0x10000 then
    [0xE0 + n / 0x1000, 0x80 + (n / 0x40) % 0x40, 0x80 + n % 0x40]
  else
    [0xF0 + n / 0x40000, 0x80 + (n / 0x1000) % 0x40,
      0x80 + (n / 0x40) % 0x40, 0x80 + n % 0x40]

/-- Uppercase hexadecimal digit for a value below 16. -/
def hexDigit (n : ℕ) : Char :=
  if n < 10 then Char.ofNat (48 + n) else Char.ofNat (55 + n)

/-- Percent-encoding of one byte, e.g. `%20` for 32. -/
def percentByte (b : ℕ) : String :=
  "%" ++ (hexDigit (b / 16)).toString ++ (hexDigit (b % 16)).toString

/-- Characters `encodeURIComponent` leaves unescaped:
ASCII alphanumerics and `- _ . ! ~ * ' ( )`. -/
def isUnreserved (c : Char) : Bool :=
  c.isAlphanum || c = Char.ofNat 45 || c = Char.ofNat 95 || c = Char.ofNat 46 ||
    c = Char.ofNat 33 || c = Char.ofNat 126 || c = Char.ofNat 42 ||
    c = Char.ofNat 39 || c = Char.ofNat 40 || c = Char.ofNat 41

/-- JavaScript `encodeURIComponent`. -/
def encodeURIComponent (s : String) : String :=
  s.toList.foldl
    (fun acc c =>
      acc ++ if isUnreserved c then c.toString
        else String.join ((utf8Bytes c).map percentByte))
    ""

/-- Value of an ASCII hexadecimal digit character. -/
def hexVal (c : Char) : ℕ :=
  if 48 ≤ c.toNat ∧ c.toNat ≤ 57 then c.toNat - 48
  else if 65 ≤ c.toNat ∧ c.toNat ≤ 70 then c.toNat - 55
  else if 97 ≤ c.toNat ∧ c.toNat ≤ 102 then c.toNat - 87
  else 0

/-- Percent-decoding at byte level: every `%XY` triple becomes the
character with code `16*X + Y`, every other character is kept. On
ASCII-only payloads (all the strings of this program) this agrees with
JavaScript `decodeURIComponent`. Used only to state properties of the
form "the text parameter, once percent-decoded, contains ...". -/
def percentDecodeList : List Char → List Char
  | [] => []
  | '%' :: h1 :: h2 :: rest =>
      Char.ofNat (16 * hexVal h1 + hexVal h2) :: percentDecodeList rest
  | c :: rest => c :: percentDecodeList rest

/-- Percent-decoding on strings. -/
def percentDecode (s : String) : String :=
  String.mk (percentDecodeList s.toList)

/-- Substring test: `containsSub s pat` holds when `pat` occurs
contiguously inside `s`. -/
def containsSub : List Char → List Char → Bool
  | [], pat => pat.isEmpty
  | c :: rest, pat => pat.isPrefixOf (c :: rest) || containsSub rest pat

/-! ### Outbound message of the item model
(`getWhatsAppMessage`, src/app.js lines 138-141) -/

/-- The plain sentence built in `getWhatsAppMessage` before encoding
(src/app.js line 139): `Hi Sisters Sparkles, I'm interested in buying
<name>. Please share details and price.` -/
def JewelleryItem.plainMessage (j : JewelleryItem) : String :=
  "Hi Sisters Sparkles, I" ++ apos ++ "m interested in buying " ++ j.name ++
    ". Please share details and price."

/-- `getWhatsAppMessage()` (src/app.js lines 138-141): builds the plain
sentence and returns `encodeURIComponent` of it. -/
def JewelleryItem.getWhatsAppMessage (j : JewelleryItem) : String :=
  encodeURIComponent j.plainMessage

/-! ### Rendered card (`createJewelleryCard`, src/app.js lines 304-338) -/

/-- JavaScript template interpolation of a possibly-undefined value:
interpolating `undefined` produces the literal text `undefined`. -/
def tmplOpt : Option String → String
  | some s => s
  | none => "undefined"

/-- The data carried by one rendered card (src/app.js lines 304-338):
the `data-item-id` of the card element and the attributes interpolated
into the inner template. -/
structure Card where
  itemId : String
  dataSrc : String
  alt : String
  dataItemId : String
  dataItemName : String
  dataImageSrc : String
  dataNetlifySrc : String

/-- `createJewelleryCard(jewellery)` (src/app.js lines 304-338). The
template writes `${jewellery.imageSrc}` into `data-src` and
`data-image-src`, `${jewellery.name}` into `alt` and `data-item-name`,
`${jewellery.id}` into `data-item-id`, and `${jewellery.netlifyImageUrl}`
into `data-netlify-src`. -/
def createJewelleryCard (jewellery : JewelleryItem) : Card :=
  { itemId := toString jewellery.id
    dataSrc := tmplOpt jewellery.imageSrc
    alt := jewellery.name
    dataItemId := toString jewellery.id
    dataItemName := jewellery.name
    dataImageSrc := tmplOpt jewellery.imageSrc
    dataNetlifySrc := tmplOpt jewellery.netlifyImageUrl }

/-! ### Grid controller (`JewelleryGridManager`, src/app.js lines 148-439)

The grid state carries what the claims are about: the set of loaded
identifiers (`this.loadedItems`, a `Set`), the item identifiers of the
cards appended to the grid in order, the hidden state of the "view more"
container and of the loading indicator, and the disabled flag of the
"view more" button. -/

structure GridState where
  loadedIds : Finset ℕ
  cards : List ℕ
  viewMoreHidden : Bool
  viewMoreDisabled : Bool
  loadingHidden : Bool
deriving DecidableEq

open JEWELLERY_CONFIG

/-- The state right after the constructor (src/app.js lines 152-161):
`loadedItems` is a fresh empty `Set`, no cards are rendered, the button
is enabled, the host page shows the "view more" container and hides the
loading indicator. -/
def initialState : GridState :=
  { loadedIds := ∅
    cards := []
    viewMoreHidden := false
    viewMoreDisabled := false
    loadingHidden := true }

/-- One iteration of the loop in `loadItemsBatch` (src/app.js lines
280-288): an identifier already in `loadedItems` is skipped; otherwise
its card is appended and the identifier is added to `loadedItems`. -/
def batchStep (acc : Finset ℕ × List ℕ) (itemId : ℕ) : Finset ℕ × List ℕ :=
  if itemId ∈ acc.1 then acc
  else (insert itemId acc.1, acc.2 ++ [itemId])

/-- `loadItemsBatch(itemIds)` (src/app.js lines 277-297): iterates
`batchStep` over the requested identifiers; the accumulated fragment is
appended to the grid. -/
def loadItemsBatch (s : GridState) (itemIds : List ℕ) : GridState :=
  let r := itemIds.foldl batchStep (s.loadedIds, s.cards)
  { s with loadedIds := r.1, cards := r.2 }

/-- `showLoading(show)` (src/app.js lines 398-402): the loading
indicator's `hidden` class is toggled to `!show`. -/
def showLoading (s : GridState) (show' : Bool) : GridState :=
  { s with loadingHidden := !show' }

/-- `updateViewMoreButton()` (src/app.js lines 407-412): the "view more"
container's `hidden` class is toggled to `!(loadedItems.size <
TOTAL_IMAGES)`. -/
def updateViewMoreButton (s : GridState) : GridState :=
  { s with viewMoreHidden := !(decide (s.loadedIds.card < TOTAL_IMAGES)) }

/-- `loadInitialItems()` (src/app.js lines 230-244): shows the loading
indicator, loads the batch `1 .. min(INITIAL_LOAD, TOTAL_IMAGES)`
(`Array.from({length: endIndex}, (_, i) => i + 1)`), hides the
indicator, and recomputes the "view more" visibility. -/
def loadInitialItems (s : GridState) : GridState :=
  let s0 := showLoading s true
  let endIndex := min INITIAL_LOAD TOTAL_IMAGES
  let items := (List.range endIndex).map (fun i => i + 1)
  let s1 := loadItemsBatch s0 items
  updateViewMoreButton (showLoading s1 false)

/-- The batch of identifiers `loadMoreItems` requests (src/app.js lines
255-264): `Array.from({length: endIndex - startIndex + 1}, (_, i) =>
startIndex + i)` with `startIndex = loadedItems.size + 1` and `endIndex
= min(loadedItems.size + BATCH_SIZE, TOTAL_IMAGES)`. The length is
computed in ordinary (possibly negative) arithmetic; `Array.from` with a
non-positive length yields the empty array. -/
def nextBatchRange (s : GridState) : List ℕ :=
  let startIndex := s.loadedIds.card + 1
  let endIndex := min (s.loadedIds.card + BATCH_SIZE) TOTAL_IMAGES
  let len : ℤ := (endIndex : ℤ) - (startIndex : ℤ) + 1
  if len ≤ 0 then []
  else (List.range len.toNat).map (fun i => startIndex + i)

/-- `loadMoreItems()` (src/app.js lines 249-271): returns immediately
when the button is disabled; otherwise disables the button, loads the
next contiguous batch, re-enables the button and recomputes the "view
more" visibility. -/
def loadMoreItems (s : GridState) : GridState :=
  if s.viewMoreDisabled then s
  else
    let s0 := { s with viewMoreDisabled := true }
    let s1 := loadItemsBatch s0 (nextBatchRange s0)
    updateViewMoreButton { s1 with viewMoreDisabled := false }

/-- The grid states reachable from the initial state through the
load-initial and load-more operations. -/
inductive Reachable : GridState → Prop
  | init : Reachable initialState
  | loadInitial {s : GridState} : Reachable s → Reachable (loadInitialItems s)
  | loadMore {s : GridState} : Reachable s → Reachable (loadMoreItems s)

/-- The relation `loadItemsBatch` maintains between the identifier set
and the rendered cards: `loadedItems` is exactly the set of identifiers
of the cards in the grid, and no identifier has two cards. -/
def GridInv (s : GridState) : Prop :=
  s.loadedIds = s.cards.toFinset ∧ s.cards.Nodup

/-! ### Purchase-intent handler (`handleWhatsAppClick`,
src/app.js lines 356-392) -/

/-- The remote image URL the handler templates from the identifier
(src/app.js line 360). -/
def netlifyImageUrl (itemId : String) : String :=
  "https://sister-sparkles.netlify.app/images/jewel-" ++ itemId ++ ".jpg"

/-- The display name used by the handler (src/app.js line 370):
`itemName || Jewellery Item <id>`, where `||` falls back on a missing or
empty dataset value. -/
def displayNameOf (itemId itemName : String) : String :=
  if itemName = "" then "Jewellery Item " ++ itemId else itemName

/-- The outbound message the handler builds (src/app.js line 378). -/
def whatsAppClickMessage (itemId itemName : String) : String :=
  "Hi Sisters Sparkles! \n\nI" ++ apos ++
    "m interested in buying this jewellery from your exhibition:\n\n *" ++
    displayNameOf itemId itemName ++ "*\n *Image:* " ++
    netlifyImageUrl itemId ++ "\n *Item #" ++ itemId ++
    "*\n\nPlease share price and availability. Thank you!"

/-- The confirmation link the handler sets on the modal (src/app.js
lines 381-383): the fixed `wa.me` template with the constant recipient
and the percent-encoded message. -/
def whatsappUrl (itemId itemName : String) : String :=
  "https://wa.me/917436053004?text=" ++
    encodeURIComponent (whatsAppClickMessage itemId itemName)

/-! ### Theorems for the claims -/

/-- C9: no constructed `JewelleryItem` ever defines `netlifyImageUrl`,
yet the card template interpolates it, so every rendered card's
`data-netlify-src` attribute is the literal string `undefined`. -/
theorem card_netlify_src_undefined (id : ℕ) :
    (createJewelleryCard (JewelleryItem.create id)).dataNetlifySrc = "undefined" ∧
      (JewelleryItem.create id).netlifyImageUrl = none :=
  ⟨rfl, rfl⟩

/-- C7 counterexample: for an identifier past the table (37), the
generated label is `Jewellery Item 37`, not `Item 37` as the claim
states. -/
theorem getName_fallback_label_counterexample :
    JewelleryItem.getName 37 = "Jewellery Item 37" ∧
      JewelleryItem.getName 37 ≠ "Item 37" := by
  exact ⟨rfl, by decide⟩

/-- C7 (amended): for every positive identifier, the item name is the
static table's entry at index `id - 1` when present, and the generated
label `Jewellery Item <id>` when the table lacks an entry there. -/
theorem getName_spec_amended :
    ∀ id : ℕ, 1 ≤ id →
      JewelleryItem.getName id =
        match JEWELLERY_NAMES.get? (id - 1) with
        | some n => n
        | none => "Jewellery Item " ++ toString id := by
  intro id _
  unfold JewelleryItem.getName
  cases hg : JEWELLERY_NAMES.get? (id - 1) with
  | none => rfl
  | some n =>
      have hmem : n ∈ JEWELLERY_NAMES := List.get?_mem hg
      have hall : ∀ x ∈ JEWELLERY_NAMES, ¬x = "" := by decide
      simp [hall n hmem]

/-- C7 witness: the amended statement evaluated at identifier 40. -/
theorem getName_spec_amended_witness :
    1 ≤ 40 ∧ JewelleryItem.getName 40 =
      (match JEWELLERY_NAMES.get? (40 - 1) with
        | some n => n
        | none => "Jewellery Item " ++ toString 40) :=
  ⟨by decide, getName_spec_amended 40 (by decide)⟩

/-- C8 counterexample: `getWhatsAppMessage` does not return the plain
human-readable sentence — the returned string differs from the plain
sentence and contains the percent-escape `%20`, so the method itself has
already percent-encoded the message. -/
theorem getWhatsAppMessage_encoded_counterexample :
    (JewelleryItem.create 1).getWhatsAppMessage ≠
        (JewelleryItem.create 1).plainMessage ∧
      containsSub (JewelleryItem.create 1).getWhatsAppMessage.toList
        ("%20").toList = true := by
  exact ⟨by decide, by decide⟩

/-- C8 (amended): `getWhatsAppMessage` returns the percent-encoding of a
fixed human-readable sentence that contains `item.name` as a literal
substring; the encoding is applied by the method itself rather than left
to the caller. -/
theorem getWhatsAppMessage_spec_amended (j : JewelleryItem) :
    j.getWhatsAppMessage = encodeURIComponent j.plainMessage ∧
      ∃ pre suf : String, j.plainMessage = pre ++ j.name ++ suf := by
  refine ⟨rfl, "Hi Sisters Sparkles, I" ++ apos ++ "m interested in buying ",
    ". Please share details and price.", ?_⟩
  simp [JewelleryItem.plainMessage, String.append_assoc]

/-- Helper: for a positive identifier, the fallback lookup index agrees
with natural-number arithmetic `(id - 1) % length`. -/
theorem tmod_toNat_of_pos (id : ℕ) (h : 1 ≤ id) :
    (Int.tmod ((id : ℤ) - 1) ( FALLBACK_IMAGES.length : ℤ)).toNat =
      (id - 1) % FALLBACK_IMAGES.length := by
  have hcast : ((id : ℤ) - 1) = ((id - 1 : ℕ) : ℤ) := by omega
  rw [hcast, Int.tmod_eq_emod (by positivity) (by positivity)]
  omega

/-- C4: `getImageSrc` is a pure function of the identifier: the local
path `images/jewel-<id>.jpg` whenever `id <= TOTAL_IMAGES`, otherwise
`FALLBACK_IMAGES[(id - 1) mod length]`; and identifiers routed to the
fallback five apart share the same fallback entry. -/
theorem getImageSrc_spec :
    (∀ id : ℕ, 1 ≤ id →
      JewelleryImageManager.getImageSrc id =
        if id ≤ TOTAL_IMAGES then
          some ( BASE_PATH ++ IMAGE_PREFIX ++ toString id ++ ".jpg")
        else FALLBACK_IMAGES.get? ((id - 1) % FALLBACK_IMAGES.length)) ∧
      JewelleryImageManager.getFallbackImage 1 =
        JewelleryImageManager.getFallbackImage 6 ∧
      JewelleryImageManager.getFallbackImage 37 =
        JewelleryImageManager.getFallbackImage 42 := by
  refine ⟨?_, by decide, by decide⟩
  intro id h
  unfold JewelleryImageManager.getImageSrc
  split_ifs with hle
  · rfl
  · unfold JewelleryImageManager.getFallbackImage
    rw [if_pos (Int.tmod_nonneg _ (by omega)), tmod_toNat_of_pos id h]

/-- C4 witness: the characterization evaluated at identifier 40. -/
theorem getImageSrc_spec_witness :
    1 ≤ 40 ∧ JewelleryImageManager.getImageSrc 40 =
      (if 40 ≤ TOTAL_IMAGES then
        some ( BASE_PATH ++ IMAGE_PREFIX ++ toString 40 ++ ".jpg")
      else FALLBACK_IMAGES.get? ((40 - 1) % FALLBACK_IMAGES.length)) :=
  ⟨by decide, getImageSrc_spec.1 40 (by decide)⟩

/-- C10: for every identifier at least 1 the fallback index
`(id - 1) % 5` computed by `getFallbackImage` is in bounds and the
lookup returns an element of `FALLBACK_IMAGES`; for identifier 0 the
JavaScript index is negative and the lookup yields no element. -/
theorem getFallbackImage_safety :
    (∀ id : ℤ, 1 ≤ id →
      0 ≤ Int.tmod (id - 1) ( FALLBACK_IMAGES.length : ℤ) ∧
        Int.tmod (id - 1) ( FALLBACK_IMAGES.length : ℤ) <
          ( FALLBACK_IMAGES.length : ℤ) ∧
        ∃ s, JewelleryImageManager.getFallbackImage id = some s ∧
          s ∈ FALLBACK_IMAGES) ∧
      JewelleryImageManager.getFallbackImage 0 = none := by
  refine ⟨?_, by decide⟩
  intro id h
  have hnn : 0 ≤ Int.tmod (id - 1) ( FALLBACK_IMAGES.length : ℤ) :=
    Int.tmod_nonneg _ (by omega)
  have hlt : Int.tmod (id - 1) ( FALLBACK_IMAGES.length : ℤ) <
      ( FALLBACK_IMAGES.length : ℤ) :=
    Int.tmod_lt_of_pos _ (by decide)
  refine ⟨hnn, hlt, ?_⟩
  have hbound : (Int.tmod (id - 1) ( FALLBACK_IMAGES.length : ℤ)).toNat <
      FALLBACK_IMAGES.length := by omega
  refine ⟨ FALLBACK_IMAGES.get ⟨_, hbound⟩, ?_, List.get_mem _ _ _⟩
  unfold JewelleryImageManager.getFallbackImage
  rw [if_pos hnn, List.get?_eq_get hbound]

/-- C10 witness: the in-bounds statement evaluated at identifier 3. -/
theorem getFallbackImage_safety_witness :
    (1 : ℤ) ≤ 3 ∧
      (0 ≤ Int.tmod ((3 : ℤ) - 1) ( FALLBACK_IMAGES.length : ℤ) ∧
        Int.tmod ((3 : ℤ) - 1) ( FALLBACK_IMAGES.length : ℤ) <
          ( FALLBACK_IMAGES.length : ℤ) ∧
        ∃ s, JewelleryImageManager.getFallbackImage 3 = some s ∧
          s ∈ FALLBACK_IMAGES) :=
  ⟨by decide, getFallbackImage_safety.1 3 (by decide)⟩

/-- C2: starting from the empty grid state, after the initial load the
set of loaded identifiers is exactly `{1 .. min(INITIAL_LOAD,
TOTAL_IMAGES)}` and its size is `min(INITIAL_LOAD, TOTAL_IMAGES)`. -/
theorem loadInitialItems_initial_spec :
    (loadInitialItems initialState).loadedIds =
        Finset.Icc 1 (min INITIAL_LOAD TOTAL_IMAGES) ∧
      (loadInitialItems initialState).loadedIds.card =
        min INITIAL_LOAD TOTAL_IMAGES := by
  exact ⟨by decide, by decide⟩

/-- C6: the buy action for item identifier 5 with display name
`Jewellery` produces the fixed `wa.me` link with the constant recipient
and a percent-encoded text parameter which, once percent-decoded,
contains the literal substring `Item #5` and the remote image URL
`https://sister-sparkles.netlify.app/images/jewel-5.jpg`. -/
theorem whatsappUrl_item5_spec :
    whatsappUrl "5" "Jewellery" =
      "https://wa.me/917436053004?text=" ++
        encodeURIComponent (whatsAppClickMessage "5" "Jewellery") ∧
      containsSub
        (percentDecode (encodeURIComponent
          (whatsAppClickMessage "5" "Jewellery"))).toList
        ("Item #5").toList = true ∧
      containsSub
        (percentDecode (encodeURIComponent
          (whatsAppClickMessage "5" "Jewellery"))).toList
        ("https://sister-sparkles.netlify.app/images/jewel-5.jpg").toList =
        true := by
  exact ⟨rfl, by decide, by decide⟩

/-! ### Lemmas about the batch-loading loop -/

/-- One loop iteration always leaves the identifier inserted. -/
theorem batchStep_fst (a : Finset ℕ × List ℕ) (x : ℕ) :
    (batchStep a x).1 = insert x a.1 := by
  unfold batchStep
  split_ifs with h
  · exact (Finset.insert_eq_self.mpr h).symm
  · rfl

/-- The identifier set after the loop is the old set united with the
requested identifiers. -/
theorem foldl_batchStep_fst (l : List ℕ) (a : Finset ℕ × List ℕ) :
    (l.foldl batchStep a).1 = a.1 ∪ l.toFinset := by
  induction l generalizing a with
  | nil => simp
  | cons x l ih =>
      rw [List.foldl_cons, ih, batchStep_fst]
      simp [List.toFinset_cons, Finset.insert_union, Finset.union_insert]

/-- `loadItemsBatch` adds exactly the requested identifiers. -/
theorem loadItemsBatch_loadedIds (s : GridState) (l : List ℕ) :
    (loadItemsBatch s l).loadedIds = s.loadedIds ∪ l.toFinset :=
  foldl_batchStep_fst l (s.loadedIds, s.cards)

/-- `loadItemsBatch` never removes an identifier. -/
theorem loadItemsBatch_subset (s : GridState) (l : List ℕ) :
    s.loadedIds ⊆ (loadItemsBatch s l).loadedIds := by
  rw [loadItemsBatch_loadedIds]
  exact Finset.subset_union_left

/-- One loop iteration preserves the set/cards correspondence. -/
theorem batchStep_inv (a : Finset ℕ × List ℕ) (x : ℕ)
    (h : a.1 = a.2.toFinset ∧ a.2.Nodup) :
    (batchStep a x).1 = (batchStep a x).2.toFinset ∧
      (batchStep a x).2.Nodup := by
  unfold batchStep
  split_ifs with hx
  · exact h
  · have hxl : x ∉ a.2 := fun hm => hx (h.1 ▸ List.mem_toFinset.mpr hm)
    constructor
    · rw [show ((insert x a.1, a.2 ++ [x]) : Finset ℕ × List ℕ).1 =
        insert x a.1 from rfl]
      rw [h.1]
      simp [List.toFinset_append, Finset.insert_eq, Finset.union_comm]
    · simp [List.nodup_append, h.2, hxl]

/-- The whole loop preserves the set/cards correspondence. -/
theorem foldl_batchStep_inv (l : List ℕ) (a : Finset ℕ × List ℕ)
    (h : a.1 = a.2.toFinset ∧ a.2.Nodup) :
    (l.foldl batchStep a).1 = (l.foldl batchStep a).2.toFinset ∧
      (l.foldl batchStep a).2.Nodup := by
  induction l generalizing a with
  | nil => exact h
  | cons x l ih =>
      rw [List.foldl_cons]
      exact ih _ (batchStep_inv a x h)

/-- `loadItemsBatch` preserves the grid invariant. -/
theorem loadItemsBatch_inv (s : GridState) (l : List ℕ) (h : GridInv s) :
    GridInv (loadItemsBatch s l) :=
  foldl_batchStep_inv l (s.loadedIds, s.cards) h

/-- A batch consisting of one already-loaded identifier leaves the whole
state unchanged. -/
theorem loadItemsBatch_single_mem (s : GridState) (x : ℕ)
    (hx : x ∈ s.loadedIds) : loadItemsBatch s [x] = s := by
  unfold loadItemsBatch batchStep
  simp [hx]

/-- A batch consisting of one fresh identifier adds it to the set and
appends exactly one card for it. -/
theorem loadItemsBatch_single_not_mem (s : GridState) (x : ℕ)
    (hx : x ∉ s.loadedIds) :
    (loadItemsBatch s [x]).loadedIds = insert x s.loadedIds ∧
      (loadItemsBatch s [x]).cards = s.cards ++ [x] := by
  unfold loadItemsBatch batchStep
  simp [hx]

/-! ### Lemmas about the grid operations -/

open JEWELLERY_CONFIG in
/-- The batch `loadMoreItems` requests is exactly the identifiers of the
next contiguous range `[loadedCount + 1, min(loadedCount + BATCH_SIZE,
TOTAL_IMAGES)]`. -/
theorem mem_nextBatchRange (s : GridState) (k : ℕ) :
    k ∈ nextBatchRange s ↔
      s.loadedIds.card + 1 ≤ k ∧
        k ≤ min (s.loadedIds.card + BATCH_SIZE) TOTAL_IMAGES := by
  simp only [nextBatchRange]
  split_ifs with h
  · simp only [List.not_mem_nil, false_iff, not_and, not_le]
    intro h1
    omega
  · simp only [List.mem_map, List.mem_range]
    constructor
    · rintro ⟨i, hi, rfl⟩
      constructor <;> omega
    · rintro ⟨h1, h2⟩
      exact ⟨k - (s.loadedIds.card + 1), by omega, by omega⟩

open JEWELLERY_CONFIG in
/-- Length of the requested batch. -/
theorem length_nextBatchRange (s : GridState) :
    (nextBatchRange s).length =
      (((min (s.loadedIds.card + BATCH_SIZE) TOTAL_IMAGES : ℕ) : ℤ) -
        ((s.loadedIds.card + 1 : ℕ) : ℤ) + 1).toNat := by
  simp only [nextBatchRange]
  split_ifs with h
  · simp only [List.length_nil]
    omega
  · simp

/-- A disabled "view more" button makes `loadMoreItems` return at once. -/
theorem loadMoreItems_disabled (s : GridState)
    (hd : s.viewMoreDisabled = true) : loadMoreItems s = s := by
  unfold loadMoreItems
  rw [hd]
  rfl

/-- Unfolding of `loadMoreItems` when the button is enabled. -/
theorem loadMoreItems_eq (s : GridState) (hd : s.viewMoreDisabled = false) :
    loadMoreItems s =
      updateViewMoreButton
        { loadItemsBatch { s with viewMoreDisabled := true }
            (nextBatchRange s) with viewMoreDisabled := false } := by
  unfold loadMoreItems
  rw [hd]
  rfl

/-- With the button enabled, `loadMoreItems` adds exactly the requested
batch to the identifier set. -/
theorem loadMoreItems_loadedIds (s : GridState)
    (hd : s.viewMoreDisabled = false) :
    (loadMoreItems s).loadedIds =
      s.loadedIds ∪ (nextBatchRange s).toFinset := by
  rw [loadMoreItems_eq s hd]
  exact loadItemsBatch_loadedIds _ _

/-- The recomputed visibility of the "view more" affordance: hidden iff
the loaded count has reached `TOTAL_IMAGES`. -/
theorem updateViewMoreButton_hidden (s : GridState) :
    (updateViewMoreButton s).viewMoreHidden = true ↔
      JEWELLERY_CONFIG.TOTAL_IMAGES ≤ s.loadedIds.card := by
  simp [updateViewMoreButton, Nat.not_lt]

/-- `updateViewMoreButton` only touches the visibility flag. -/
theorem updateViewMoreButton_loadedIds (s : GridState) :
    (updateViewMoreButton s).loadedIds = s.loadedIds := rfl

/-- `showLoading` only touches the loading-indicator flag. -/
theorem showLoading_loadedIds (s : GridState) (b : Bool) :
    (showLoading s b).loadedIds = s.loadedIds := rfl

open JEWELLERY_CONFIG in
/-- Unfolding of `loadInitialItems`. -/
theorem loadInitialItems_eq (s : GridState) :
    loadInitialItems s =
      updateViewMoreButton
        (showLoading
          (loadItemsBatch (showLoading s true)
            ((List.range (min INITIAL_LOAD TOTAL_IMAGES)).map
              (fun i => i + 1)))
          false) := rfl

open JEWELLERY_CONFIG in
/-- `loadInitialItems` adds exactly the identifiers
`1 .. min(INITIAL_LOAD, TOTAL_IMAGES)`. -/
theorem loadInitialItems_loadedIds (s : GridState) :
    (loadInitialItems s).loadedIds =
      s.loadedIds ∪
        ((List.range (min INITIAL_LOAD TOTAL_IMAGES)).map
          (fun i => i + 1)).toFinset := by
  rw [loadInitialItems_eq, updateViewMoreButton_loadedIds,
    showLoading_loadedIds, loadItemsBatch_loadedIds, showLoading_loadedIds]

open JEWELLERY_CONFIG in
/-- After `loadInitialItems` the affordance is hidden iff the loaded
count has reached `TOTAL_IMAGES`. -/
theorem loadInitialItems_hidden (s : GridState) :
    (loadInitialItems s).viewMoreHidden = true ↔
      TOTAL_IMAGES ≤ (loadInitialItems s).loadedIds.card := by
  rw [loadInitialItems_eq, updateViewMoreButton_hidden]
  simp only [updateViewMoreButton_loadedIds, showLoading_loadedIds]

open JEWELLERY_CONFIG in
/-- After an enabled `loadMoreItems` the affordance is hidden iff the
loaded count has reached `TOTAL_IMAGES`. -/
theorem loadMoreItems_hidden (s : GridState)
    (hd : s.viewMoreDisabled = false) :
    (loadMoreItems s).viewMoreHidden = true ↔
      TOTAL_IMAGES ≤ (loadMoreItems s).loadedIds.card := by
  rw [loadMoreItems_eq s hd]
  exact updateViewMoreButton_hidden _

open JEWELLERY_CONFIG in
/-- An empty requested batch leaves the identifier set and the cards
unchanged. -/
theorem loadMoreItems_empty (s : GridState) (h : nextBatchRange s = []) :
    (loadMoreItems s).loadedIds = s.loadedIds ∧
      (loadMoreItems s).cards = s.cards := by
  by_cases hd : s.viewMoreDisabled = true
  · rw [loadMoreItems_disabled s hd]
    exact ⟨rfl, rfl⟩
  · have hd' : s.viewMoreDisabled = false := by
      cases hvd : s.viewMoreDisabled
      · rfl
      · exact absurd hvd hd
    rw [loadMoreItems_eq s hd']
    rw [show loadItemsBatch { s with viewMoreDisabled := true }
      (nextBatchRange s) = loadItemsBatch { s with viewMoreDisabled := true }
      [] from by rw [h]]
    exact ⟨rfl, rfl⟩

open JEWELLERY_CONFIG in
/-- One enabled or disabled `loadMoreItems` call never pushes the loaded
count past `TOTAL_IMAGES`. -/
theorem loadMoreItems_card_le (s : GridState)
    (h : s.loadedIds.card ≤ TOTAL_IMAGES) :
    (loadMoreItems s).loadedIds.card ≤ TOTAL_IMAGES := by
  by_cases hd : s.viewMoreDisabled = true
  · rwa [loadMoreItems_disabled s hd]
  · have hd' : s.viewMoreDisabled = false := by
      cases hvd : s.viewMoreDisabled
      · rfl
      · exact absurd hvd hd
    have hcard : (loadMoreItems s).loadedIds.card ≤
        s.loadedIds.card + (nextBatchRange s).length := by
      rw [loadMoreItems_loadedIds s hd']
      exact le_trans (Finset.card_union_le _ _)
        (Nat.add_le_add_left (List.toFinset_card_le _) _)
    have hlen := length_nextBatchRange s
    simp only [ TOTAL_IMAGES, BATCH_SIZE] at *
    omega

/-- Two states with the same identifier set and cards share the grid
invariant. -/
theorem GridInv_of_eq (s t : GridState) (hids : s.loadedIds = t.loadedIds)
    (hcards : s.cards = t.cards) (h : GridInv t) : GridInv s := by
  unfold GridInv at *
  rw [hids, hcards]
  exact h

/-- `updateViewMoreButton` leaves the cards unchanged. -/
theorem updateViewMoreButton_cards (s : GridState) :
    (updateViewMoreButton s).cards = s.cards := rfl

/-- `showLoading` leaves the cards unchanged. -/
theorem showLoading_cards (s : GridState) (b : Bool) :
    (showLoading s b).cards = s.cards := rfl

/-- The grid invariant is preserved by the initial load. -/
theorem GridInv_loadInitialItems (s : GridState) (h : GridInv s) :
    GridInv (loadInitialItems s) := by
  apply GridInv_of_eq _ (loadItemsBatch (showLoading s true)
    ((List.range (min JEWELLERY_CONFIG.INITIAL_LOAD
      JEWELLERY_CONFIG.TOTAL_IMAGES)).map (fun i => i + 1)))
  · rw [loadInitialItems_eq, updateViewMoreButton_loadedIds,
      showLoading_loadedIds]
  · rw [loadInitialItems_eq, updateViewMoreButton_cards, showLoading_cards]
  · exact loadItemsBatch_inv _ _ (GridInv_of_eq _ s rfl rfl h)

/-- The grid invariant is preserved by the load-more operation. -/
theorem GridInv_loadMoreItems (s : GridState) (h : GridInv s) :
    GridInv (loadMoreItems s) := by
  by_cases hd : s.viewMoreDisabled = true
  · rwa [loadMoreItems_disabled s hd]
  · have hd' : s.viewMoreDisabled = false := by
      cases hvd : s.viewMoreDisabled
      · rfl
      · exact absurd hvd hd
    rw [loadMoreItems_eq s hd']
    apply GridInv_of_eq _ (loadItemsBatch { s with viewMoreDisabled := true }
      (nextBatchRange s))
    · rw [updateViewMoreButton_loadedIds]
    · rw [updateViewMoreButton_cards]
    · exact loadItemsBatch_inv _ _ (GridInv_of_eq _ s rfl rfl h)

/-- Every reachable grid state keeps its identifiers in range and its
cards in bijection with the identifier set. -/
theorem reachable_strong_inv (s : GridState) (h : Reachable s) :
    s.loadedIds ⊆ Finset.Icc 1 JEWELLERY_CONFIG.TOTAL_IMAGES ∧
      GridInv s := by
  induction h with
  | init => exact ⟨Finset.empty_subset _, rfl, List.nodup_nil⟩
  | @loadInitial t hr ih =>
      constructor
      · rw [loadInitialItems_loadedIds]
        apply Finset.union_subset ih.1
        intro k hk
        simp only [List.mem_toFinset, List.mem_map, List.mem_range] at hk
        obtain ⟨i, hi, rfl⟩ := hk
        simp only [Finset.mem_Icc]
        have hmin : min JEWELLERY_CONFIG.INITIAL_LOAD
            JEWELLERY_CONFIG.TOTAL_IMAGES ≤ JEWELLERY_CONFIG.TOTAL_IMAGES :=
          min_le_right _ _
        omega
      · exact GridInv_loadInitialItems t ih.2
  | @loadMore t hr ih =>
      constructor
      · by_cases hd : t.viewMoreDisabled = true
        · rw [loadMoreItems_disabled t hd]
          exact ih.1
        · have hd' : t.viewMoreDisabled = false := by
            cases hvd : t.viewMoreDisabled
            · rfl
            · exact absurd hvd hd
          rw [loadMoreItems_loadedIds t hd']
          apply Finset.union_subset ih.1
          intro k hk
          rw [List.mem_toFinset, mem_nextBatchRange] at hk
          simp only [Finset.mem_Icc]
          have hmin : min (t.loadedIds.card + JEWELLERY_CONFIG.BATCH_SIZE)
              JEWELLERY_CONFIG.TOTAL_IMAGES ≤
              JEWELLERY_CONFIG.TOTAL_IMAGES := min_le_right _ _
          omega
      · exact GridInv_loadMoreItems t ih.2

/-- C3: in every grid state reachable from the initial state through the
load-initial and load-more operations, `loadedIds` is a subset of
`{1 .. TOTAL_IMAGES}` and the rendered cards contain no duplicate
identifier; and neither operation ever shrinks `loadedIds`. -/
theorem grid_invariant_spec :
    (∀ s : GridState, Reachable s →
      s.loadedIds ⊆ Finset.Icc 1 JEWELLERY_CONFIG.TOTAL_IMAGES ∧
        s.cards.Nodup) ∧
      (∀ s : GridState,
        s.loadedIds.card ≤ (loadInitialItems s).loadedIds.card ∧
          s.loadedIds.card ≤ (loadMoreItems s).loadedIds.card) := by
  constructor
  · intro s h
    exact ⟨(reachable_strong_inv s h).1, (reachable_strong_inv s h).2.2⟩
  · intro s
    constructor
    · apply Finset.card_le_card
      rw [loadInitialItems_loadedIds]
      exact Finset.subset_union_left
    · by_cases hd : s.viewMoreDisabled = true
      · rw [loadMoreItems_disabled s hd]
      · have hd' : s.viewMoreDisabled = false := by
          cases hvd : s.viewMoreDisabled
          · rfl
          · exact absurd hvd hd
        apply Finset.card_le_card
        rw [loadMoreItems_loadedIds s hd']
        exact Finset.subset_union_left

/-- C3 witness: the invariant evaluated at the initial state. -/
theorem grid_invariant_spec_witness :
    Reachable initialState ∧
      (initialState.loadedIds ⊆
          Finset.Icc 1 JEWELLERY_CONFIG.TOTAL_IMAGES ∧
        initialState.cards.Nodup) :=
  ⟨Reachable.init, grid_invariant_spec.1 initialState Reachable.init⟩

/-- C1: `loadMoreItems` requests exactly the contiguous range
`[loadedCount + 1, min(loadedCount + BATCH_SIZE, TOTAL_IMAGES)]`; when
the loaded count equals `TOTAL_IMAGES` the range is empty and the batch
load changes neither the identifier set nor the cards; repeated
`loadMoreItems` calls never grow the loaded count past `TOTAL_IMAGES`;
and after every batch load (initial or subsequent) the "load more"
affordance is hidden iff the loaded count has reached `TOTAL_IMAGES`. -/
theorem loadMore_spec :
    (∀ (s : GridState) (k : ℕ), k ∈ nextBatchRange s ↔
      s.loadedIds.card + 1 ≤ k ∧
        k ≤ min (s.loadedIds.card + JEWELLERY_CONFIG.BATCH_SIZE)
          JEWELLERY_CONFIG.TOTAL_IMAGES) ∧
      (∀ s : GridState, s.loadedIds.card = JEWELLERY_CONFIG.TOTAL_IMAGES →
        nextBatchRange s = [] ∧
          (loadMoreItems s).loadedIds = s.loadedIds ∧
          (loadMoreItems s).cards = s.cards) ∧
      (∀ (s : GridState) (n : ℕ),
        s.loadedIds.card ≤ JEWELLERY_CONFIG.TOTAL_IMAGES →
          (loadMoreItems^[n] s).loadedIds.card ≤
            JEWELLERY_CONFIG.TOTAL_IMAGES) ∧
      (∀ s : GridState, s.viewMoreDisabled = false →
        ((loadMoreItems s).viewMoreHidden = true ↔
          JEWELLERY_CONFIG.TOTAL_IMAGES ≤
            (loadMoreItems s).loadedIds.card)) ∧
      (∀ s : GridState,
        (loadInitialItems s).viewMoreHidden = true ↔
          JEWELLERY_CONFIG.TOTAL_IMAGES ≤
            (loadInitialItems s).loadedIds.card) := by
  refine ⟨mem_nextBatchRange, ?_, ?_, loadMoreItems_hidden,
    loadInitialItems_hidden⟩
  · intro s hcard
    have hempty : nextBatchRange s = [] := by
      rw [List.eq_nil_iff_forall_not_mem]
      intro k hk
      rw [mem_nextBatchRange] at hk
      have hmin := min_le_right
        (s.loadedIds.card + JEWELLERY_CONFIG.BATCH_SIZE)
        JEWELLERY_CONFIG.TOTAL_IMAGES
      omega
    exact ⟨hempty, loadMoreItems_empty s hempty⟩
  · intro s n h
    induction n with
    | zero => simpa using h
    | succ n ih =>
        rw [Function.iterate_succ_apply']
        exact loadMoreItems_card_le _ ih

/-- C1 witness: the repeated-call bound applied at the initial state,
and the visibility equivalence applied at the initial state. -/
theorem loadMore_spec_witness :
    (initialState.loadedIds.card ≤ JEWELLERY_CONFIG.TOTAL_IMAGES ∧
      (loadMoreItems^[5] initialState).loadedIds.card ≤
        JEWELLERY_CONFIG.TOTAL_IMAGES) ∧
      (initialState.viewMoreDisabled = false ∧
        ((loadMoreItems initialState).viewMoreHidden = true ↔
          JEWELLERY_CONFIG.TOTAL_IMAGES ≤
            (loadMoreItems initialState).loadedIds.card)) :=
  ⟨⟨by decide, loadMore_spec.2.2.1 initialState 5 (by decide)⟩,
    ⟨rfl, loadMore_spec.2.2.2.1 initialState rfl⟩⟩

/-- C5: loading a batch is idempotent per identifier: under the grid
invariant, after `loadItemsBatch [x]` twice the identifier `x` is loaded
and has exactly one rendered card, and an identifier already present is
silently skipped (the whole state is unchanged). -/
theorem loadItemsBatch_idempotent (s : GridState) (x : ℕ)
    (h : GridInv s) :
    x ∈ (loadItemsBatch (loadItemsBatch s [x]) [x]).loadedIds ∧
      (loadItemsBatch (loadItemsBatch s [x]) [x]).cards.count x = 1 ∧
      (x ∈ s.loadedIds → loadItemsBatch s [x] = s) := by
  by_cases hx : x ∈ s.loadedIds
  · have h1 : loadItemsBatch s [x] = s := loadItemsBatch_single_mem s x hx
    rw [h1, h1]
    have hmem : x ∈ s.cards := List.mem_toFinset.mp (h.1 ▸ hx)
    exact ⟨hx, List.count_eq_one_of_mem h.2 hmem, fun _ => rfl⟩
  · obtain ⟨hids, hcards⟩ := loadItemsBatch_single_not_mem s x hx
    have hx2 : x ∈ (loadItemsBatch s [x]).loadedIds := by
      rw [hids]
      exact Finset.mem_insert_self x _
    have h2 : loadItemsBatch (loadItemsBatch s [x]) [x] =
        loadItemsBatch s [x] := loadItemsBatch_single_mem _ x hx2
    rw [h2]
    refine ⟨hx2, ?_, fun hmem => absurd hmem hx⟩
    have hnotc : x ∉ s.cards := fun hc => hx (h.1 ▸ List.mem_toFinset.mpr hc)
    rw [hcards, List.count_append]
    simp [List.count_eq_zero.mpr hnotc]

/-- C5 witness: the idempotence statement evaluated at the state holding
exactly identifier 3. -/
theorem loadItemsBatch_idempotent_witness :
    GridInv (loadItemsBatch initialState [3]) ∧
      (3 ∈ (loadItemsBatch (loadItemsBatch (loadItemsBatch initialState [3])
          [3]) [3]).loadedIds ∧
        (loadItemsBatch (loadItemsBatch (loadItemsBatch initialState [3])
          [3]) [3]).cards.count 3 = 1 ∧
        (3 ∈ (loadItemsBatch initialState [3]).loadedIds →
          loadItemsBatch (loadItemsBatch initialState [3]) [3] =
            loadItemsBatch initialState [3])) :=
  ⟨⟨by decide, by decide⟩,
    loadItemsBatch_idempotent (loadItemsBatch initialState [3]) 3
      ⟨by decide, by decide⟩⟩

end SisterSparkles
